import Mathlib

/-!
Shallow embedding of the call-lifecycle controller of the VoiceesGem
dashboard (src/dashboard/src/app/page.tsx) and of its session clock
(the CostTracker component).

The controller is a React component; its observable state is the pair of
`useState` cells `status` and `startTime`, the `isMuted` cell, and the
`clientRef` ref.  The per-call closure of `startCall` adds the
`connectionHandled` latch and the `connectionPoll` interval with its
`pollAttempts` counter.  All of these are collected in `CState`.  The
ghost counter `activations` counts how many times the activation block
(`setStatus("active"); setStartTime(Date.now())`) has run — the code has
exactly four such sites (the transportStateChanged handler, the connected
handler, the in-budget poll branch, and the final direct check at poll
exhaustion).  `micLog` records the arguments of every `enableMic` call.

The code is single-threaded and event-driven; we model it as a labelled
transition system whose atomic steps are the handler bodies and the two
suspension points of `startCall` (the teardown of the old client and the
`connect()` call).  A poll interval left over from a previous call always
references a client that was disconnected when the next call began, so
its remaining ticks can never fire an activation branch; accordingly the
step for a new call drops the stale interval.
-/

namespace VoiceesGem

/-- The four values of the `status` state cell. -/
inductive Status where
  | idle
  | connecting
  | active
  | error
deriving DecidableEq, Repr

/-- The transport states that matter to the `transportStateChanged`
handler: "connected", "ready", or anything else. -/
inductive TransportState where
  | connected
  | ready
  | other
deriving DecidableEq, Repr

/-- Observable state of the controller together with the per-call closure
variables of `startCall`. -/
structure CState where
  status : Status
  startTime : Option Nat
  isMuted : Bool
  hasClientRef : Bool
  connectionHandled : Bool
  handlers : Bool
  connectInFlight : Bool
  pollActive : Bool
  pollAttempts : Nat
  activations : Nat
  micLog : List Bool
deriving DecidableEq, Repr

/-- Initial component state: all `useState` cells at their initial values,
`clientRef.current = null`, no call in progress. -/
def initState : CState :=
  { status := Status.idle, startTime := none, isMuted := false,
    hasClientRef := false, connectionHandled := false, handlers := false,
    connectInFlight := false, pollActive := false, pollAttempts := 0,
    activations := 0, micLog := [] }

/-- The poll budget: `const maxPollAttempts = 10`. -/
def maxPollAttempts : Nat := 10

/-- The activation block `connectionHandled = true; setStatus("active");
setStartTime(Date.now())` shared by the four activation sites. -/
def activate (s : CState) (now : Nat) : CState :=
  { s with connectionHandled := true, status := Status.active,
           startTime := some now, activations := s.activations + 1 }

/-- Handler of the `transportStateChanged` event (page.tsx lines 40-50):
activate iff the state is connected/ready and the latch is unset. -/
def onTransportStateChanged (s : CState) (ts : TransportState) (now : Nat) : CState :=
  if (ts = TransportState.connected ∨ ts = TransportState.ready) ∧
      s.connectionHandled = false then
    activate s now
  else s

/-- Handler of the `connected` event (lines 52-59). -/
def onConnected (s : CState) (now : Nat) : CState :=
  if s.connectionHandled = false then activate s now else s

/-- Handler of the `disconnected` event (lines 61-66): release the latch,
go idle, clear startTime.  The client ref is not touched. -/
def onDisconnected (s : CState) : CState :=
  { s with connectionHandled := false, status := Status.idle, startTime := none }

/-- Handler of the `error` event (lines 68-71): set status to error.
Nothing else is touched — in particular `startTime` is left as it was. -/
def onError (s : CState) : CState :=
  { s with status := Status.error }

/-- One firing of the `connectionPoll` interval callback (lines 115-139).
`isConnected` is the value of `client.connected` read by this tick (the
callback body runs atomically, so the read at line 117 and the re-read at
line 132 see the same value).  The counter is incremented first; the
in-budget branch requires the latch to be unset, but the final direct
check at exhaustion does not consult the latch. -/
def connectionPollTick (s : CState) (isConnected : Bool) (now : Nat) : CState :=
  if isConnected = true ∧ s.connectionHandled = false then
    activate { s with pollAttempts := s.pollAttempts + 1, pollActive := false } now
  else if maxPollAttempts ≤ s.pollAttempts + 1 then
    if isConnected = true then
      activate { s with pollAttempts := s.pollAttempts + 1, pollActive := false } now
    else
      { s with pollAttempts := s.pollAttempts + 1, pollActive := false }
  else { s with pollAttempts := s.pollAttempts + 1 }

/-- Entry of `startCall` up to the `connect()` call (lines 19-95):
`setStatus("connecting")` runs first; if an old client ref exists its
teardown is awaited inside the `try` (`teardownOk` says whether that
`disconnect()` resolved).  On success the new client is created, the
fresh latch is installed and the handlers registered; a stale poll from
the previous call is inert from here on and is dropped.  On teardown
failure control jumps to the `catch` (line 143), which sets status to
error — the new client is never created and `connect()` is never issued.
Returns (new state, teardown attempted?, control proceeds to connect?). -/
def startCallBegin (s : CState) (teardownOk : Bool) : CState × Bool × Bool :=
  if s.hasClientRef then
    if teardownOk then
      ({ s with status := Status.connecting, connectionHandled := false,
                handlers := true, pollActive := false, pollAttempts := 0,
                connectInFlight := true }, true, true)
    else
      ({ s with status := Status.error }, true, false)
  else
    ({ s with status := Status.connecting, connectionHandled := false,
              handlers := true, pollActive := false, pollAttempts := 0,
              connectInFlight := true }, false, true)

/-- The `connect()` call (line 103) resolving: the `connectionPoll`
interval is installed (lines 111-139) and the client stored in the ref
(line 141). -/
def connectResolved (s : CState) : CState :=
  { s with connectInFlight := false, pollActive := true, pollAttempts := 0,
           hasClientRef := true }

/-- The `connect()` call rejecting: the `catch` (lines 143-146) sets
status to error; the poll is never installed and the ref never stored. -/
def connectFailed (s : CState) : CState :=
  { s with connectInFlight := false, status := Status.error }

/-- `endCall` (lines 149-156).  There is no try/catch: if a client ref
exists and its `disconnect()` rejects, the async function rejects and the
remaining statements (null the ref, set idle, clear startTime) never run.
Returns (new state, did the call reject?). -/
def endCall (s : CState) (teardownOk : Bool) : CState × Bool :=
  if s.hasClientRef then
    if teardownOk then
      ({ s with hasClientRef := false, status := Status.idle,
                startTime := none }, false)
    else
      (s, true)
  else
    ({ s with status := Status.idle, startTime := none }, false)

/-- `toggleMute` (lines 158-164): guarded on the client ref only, not on
`status`.  `newMute = !isMuted; enableMic(!newMute); setIsMuted(newMute)`.
Each `enableMic` argument is appended to `micLog`. -/
def toggleMute (s : CState) : CState :=
  if s.hasClientRef then
    { s with isMuted := !s.isMuted, micLog := s.micLog ++ [!(!s.isMuted)] }
  else s

/-- Events of the controller LTS: the user-invokable operations, the two
outcomes of each suspension point of `startCall`, the transport event
callbacks, and one firing of the poll interval. -/
inductive Ev where
  | startBegin (teardownOk : Bool)
  | connectOk
  | connectFail
  | connected (now : Nat)
  | transportState (ts : TransportState) (now : Nat)
  | disconnected
  | errored
  | pollTick (isConnected : Bool) (now : Nat)
  | endEv (teardownOk : Bool)
  | muteEv
deriving DecidableEq, Repr

/-- One atomic step.  Transport events require the handlers of the
current call to be registered; a poll tick requires the interval to be
live; `connect()` can only resolve or reject while in flight.  `none`
means the event is not enabled in this state. -/
def step (s : CState) : Ev → Option CState
  | Ev.startBegin ok => some (startCallBegin s ok).1
  | Ev.connectOk => if s.connectInFlight then some (connectResolved s) else none
  | Ev.connectFail => if s.connectInFlight then some (connectFailed s) else none
  | Ev.connected now => if s.handlers then some (onConnected s now) else none
  | Ev.transportState ts now =>
      if s.handlers then some (onTransportStateChanged s ts now) else none
  | Ev.disconnected => if s.handlers then some (onDisconnected s) else none
  | Ev.errored => if s.handlers then some (onError s) else none
  | Ev.pollTick b now => if s.pollActive then some (connectionPollTick s b now) else none
  | Ev.endEv ok => some (endCall s ok).1
  | Ev.muteEv => some (toggleMute s)

/-- Run a trace of events from a state; `none` if some event is disabled. -/
def run (s : CState) : List Ev → Option CState
  | [] => some s
  | e :: tr =>
    match step s e with
    | some s1 => run s1 tr
    | none => none

/-- Number of poll-interval firings in a trace. -/
def pollCount : List Ev → Nat
  | [] => 0
  | Ev.pollTick _ _ :: tr => pollCount tr + 1
  | _ :: tr => pollCount tr

/-- Whether a trace consists only of poll ticks that read
`client.connected = false`. -/
def onlyNegativePolls : List Ev → Bool
  | [] => true
  | Ev.pollTick false _ :: tr => onlyNegativePolls tr
  | _ :: _ => false

/-!
Session-clock model of the CostTracker component.  Its state cells are
`cost` and `duration`; the effect installs a 100 ms interval whenever
`isActive && startTime` holds and clears it otherwise; the interval
callback recomputes `duration` and `cost` from one `Date.now()` sample.
Numbers are modelled as rationals.
-/

/-- The pricing constant of CostTracker: `COST_PER_SECOND = 0.0005`. -/
def COST_PER_SECOND : ℚ := 0.0005

/-- State of the CostTracker component: the two state cells, whether the
interval is installed, and the `startTime` prop captured by the interval
callback's closure. -/
structure ClockState where
  cost : ℚ
  duration : ℚ
  timerOn : Bool
  sessionStart : Option ℤ
deriving DecidableEq, Repr

/-- Initial CostTracker state: `useState(0)` twice, no timer. -/
def clockInit : ClockState :=
  { cost := 0, duration := 0, timerOn := false, sessionStart := none }

/-- The CostTracker effect body, re-run whenever the `(isActive,
startTime)` props change: install the interval iff `isActive` and a
start timestamp are both present, otherwise clear it.  The stored `cost`
and `duration` cells are not touched either way. -/
def clockSetInputs (s : ClockState) (isActive : Bool) (startTime : Option ℤ) : ClockState :=
  if isActive = true ∧ startTime.isSome then
    { s with timerOn := true, sessionStart := startTime }
  else
    { s with timerOn := false }

/-- One firing of the CostTracker interval callback:
`diff = (now - startTime) / 1000; setDuration(diff);
setCost(diff * COST_PER_SECOND)`. -/
def clockTickFn (s : ClockState) (now : ℤ) : ClockState :=
  match s.sessionStart with
  | some st =>
    let diff : ℚ := ((now : ℚ) - (st : ℚ)) / 1000
    { s with duration := diff, cost := diff * COST_PER_SECOND }
  | none => s

/-- Events of the clock: a prop change delivered to the effect, or one
interval firing. -/
inductive ClockEv where
  | inputs (isActive : Bool) (startTime : Option ℤ)
  | tick (now : ℤ)
deriving Repr

/-- One atomic clock step; a tick is only enabled while the interval is
installed. -/
def clockStep (s : ClockState) : ClockEv → Option ClockState
  | ClockEv.inputs a st => some (clockSetInputs s a st)
  | ClockEv.tick now => if s.timerOn then some (clockTickFn s now) else none

/-!
Concrete states used by the counterexamples and witnesses below.
-/

/-- A call that starts from the initial state, whose `connect()`
resolves, and whose `connected` event then fires at t = 100. -/
def activationTrace : List Ev :=
  [Ev.startBegin true, Ev.connectOk, Ev.connected 100]

/-- The state reached by `activationTrace`: active, startTime = 100,
latch set, client ref stored, poll interval still live. -/
def activeState : CState := (run initState activationTrace).getD initState

/-- Ten further poll ticks, all reading `client.connected = true`, at
300 ms spacing after activation. -/
def pollFlood : List Ev :=
  [Ev.pollTick true 400, Ev.pollTick true 700, Ev.pollTick true 1000,
   Ev.pollTick true 1300, Ev.pollTick true 1600, Ev.pollTick true 1900,
   Ev.pollTick true 2200, Ev.pollTick true 2500, Ev.pollTick true 2800,
   Ev.pollTick true 3100]

/-- A session that activates and then receives the transport's
`disconnected` event: status idle, but the client ref is still stored. -/
def disconnectedIdleTrace : List Ev := activationTrace ++ [Ev.disconnected]

/-- The state reached by `disconnectedIdleTrace`. -/
def idleWithRefState : CState := (run initState disconnectedIdleTrace).getD initState

/-- The state right after `connect()` resolves, before any signal. -/
def postConnectState : CState :=
  (run initState [Ev.startBegin true, Ev.connectOk]).getD initState

/-- Ten poll ticks that all read `client.connected = false`. -/
def negPolls : List Ev :=
  [Ev.pollTick false 300, Ev.pollTick false 600, Ev.pollTick false 900,
   Ev.pollTick false 1200, Ev.pollTick false 1500, Ev.pollTick false 1800,
   Ev.pollTick false 2100, Ev.pollTick false 2400, Ev.pollTick false 2700,
   Ev.pollTick false 3000]

/-!
Invariant infrastructure for the reachable-state claims.
-/

/-- The part of the spec's startTime/status invariant that the code does
maintain: startTime is cleared in idle and set in active. -/
def Inv (s : CState) : Prop :=
  (s.status = Status.idle → s.startTime = none) ∧
  (s.status = Status.active → s.startTime ≠ none)

/-- Bound used by the poll-budget argument: how many further poll ticks
the live interval can still fire. -/
def pollBudget (s : CState) : Nat :=
  if s.pollActive then max (maxPollAttempts - s.pollAttempts) 1 else 0

/-- A concrete clock state: timer installed for a session that started at
t = 1000. -/
def clockDemo : ClockState :=
  { cost := 0, duration := 0, timerOn := true, sessionStart := some 1000 }

/-- Every enabled step preserves `Inv`. -/
theorem inv_step {s s' : CState} {e : Ev} (h : Inv s) (hs : step s e = some s') :
    Inv s' := by
  obtain ⟨h1, h2⟩ := h
  cases e with
  | startBegin ok =>
    simp only [step, Option.some.injEq, startCallBegin] at hs
    split_ifs at hs <;> subst hs <;>
      exact ⟨(by intro h; cases h), (by intro h; cases h)⟩
  | connectOk =>
    simp only [step] at hs
    split at hs
    · simp only [Option.some.injEq] at hs
      subst hs
      exact ⟨h1, h2⟩
    · cases hs
  | connectFail =>
    simp only [step] at hs
    split at hs
    · simp only [Option.some.injEq] at hs
      subst hs
      exact ⟨(by intro h; cases h), (by intro h; cases h)⟩
    · cases hs
  | connected now =>
    simp only [step] at hs
    split at hs
    · simp only [Option.some.injEq, onConnected, activate] at hs
      split_ifs at hs <;> subst hs
      · exact ⟨(by intro h; cases h), (by intro _; simp)⟩
      · exact ⟨h1, h2⟩
    · cases hs
  | transportState ts now =>
    simp only [step] at hs
    split at hs
    · simp only [Option.some.injEq, onTransportStateChanged, activate] at hs
      split_ifs at hs <;> subst hs
      · exact ⟨(by intro h; cases h), (by intro _; simp)⟩
      · exact ⟨h1, h2⟩
    · cases hs
  | disconnected =>
    simp only [step] at hs
    split at hs
    · simp only [Option.some.injEq, onDisconnected] at hs
      subst hs
      exact ⟨(by intro _; rfl), (by intro h; cases h)⟩
    · cases hs
  | errored =>
    simp only [step] at hs
    split at hs
    · simp only [Option.some.injEq, onError] at hs
      subst hs
      exact ⟨(by intro h; cases h), (by intro h; cases h)⟩
    · cases hs
  | pollTick b now =>
    simp only [step] at hs
    split at hs
    · simp only [Option.some.injEq, connectionPollTick, activate] at hs
      split_ifs at hs <;> subst hs
      · exact ⟨(by intro h; cases h), (by intro _; simp)⟩
      · exact ⟨(by intro h; cases h), (by intro _; simp)⟩
      · exact ⟨h1, h2⟩
      · exact ⟨h1, h2⟩
    · cases hs
  | endEv ok =>
    simp only [step, Option.some.injEq, endCall] at hs
    split_ifs at hs <;> subst hs
    · exact ⟨(by intro _; rfl), (by intro h; cases h)⟩
    · exact ⟨h1, h2⟩
    · exact ⟨(by intro _; rfl), (by intro h; cases h)⟩
  | muteEv =>
    simp only [step, Option.some.injEq, toggleMute] at hs
    split_ifs at hs <;> subst hs <;> exact ⟨h1, h2⟩

/-- `Inv` is preserved along any enabled trace. -/
theorem inv_run {s s' : CState} {tr : List Ev} (h : Inv s) (hs : run s tr = some s') :
    Inv s' := by
  induction tr generalizing s with
  | nil =>
    simp only [run, Option.some.injEq] at hs
    subst hs; exact h
  | cons e rest ih =>
    simp only [run] at hs
    cases he : step s e with
    | none => rw [he] at hs; cases hs
    | some s1 =>
      rw [he] at hs
      exact ih (inv_step h he) hs

/-- A poll tick that reads `client.connected = false` leaves `status` and
`startTime` untouched: the in-budget activation branch needs the flag and
the final direct check needs the flag. -/
theorem connectionPollTick_false_fix (s : CState) (n : Nat) :
    (connectionPollTick s false n).status = s.status ∧
    (connectionPollTick s false n).startTime = s.startTime := by
  simp only [connectionPollTick]
  split_ifs <;> simp_all

/-- One firing of the poll consumes one unit of the budget: every branch
either clears the interval or increments the counter. -/
theorem pollBudget_tick {s : CState} (b : Bool) (n : Nat)
    (hpa : s.pollActive = true) :
    pollBudget (connectionPollTick s b n) + 1 ≤ pollBudget s := by
  simp only [pollBudget, connectionPollTick, maxPollAttempts, activate]
  split_ifs <;> simp_all [Nat.max_def] <;> split_ifs <;> omega

/-- No event other than a poll tick or the installation of a new poll at
`connect()` resolution increases the budget. -/
theorem pollBudget_step_le {s s' : CState} {e : Ev}
    (hok : e ≠ Ev.connectOk)
    (hpt : ∀ b n, e ≠ Ev.pollTick b n)
    (hs : step s e = some s') :
    pollBudget s' ≤ pollBudget s := by
  cases e with
  | connectOk => exact absurd rfl hok
  | pollTick b n => exact absurd rfl (hpt b n)
  | startBegin ok =>
    simp only [step, Option.some.injEq, startCallBegin] at hs
    split_ifs at hs <;> subst hs <;> simp [pollBudget]
  | connectFail =>
    simp only [step] at hs
    split at hs
    · simp only [Option.some.injEq, connectFailed] at hs
      subst hs; simp [pollBudget]
    · cases hs
  | connected now =>
    simp only [step] at hs
    split at hs
    · simp only [Option.some.injEq, onConnected, activate] at hs
      split_ifs at hs <;> subst hs <;> simp [pollBudget]
    · cases hs
  | transportState ts now =>
    simp only [step] at hs
    split at hs
    · simp only [Option.some.injEq, onTransportStateChanged, activate] at hs
      split_ifs at hs <;> subst hs <;> simp [pollBudget]
    · cases hs
  | disconnected =>
    simp only [step] at hs
    split at hs
    · simp only [Option.some.injEq, onDisconnected] at hs
      subst hs; simp [pollBudget]
    · cases hs
  | errored =>
    simp only [step] at hs
    split at hs
    · simp only [Option.some.injEq, onError] at hs
      subst hs; simp [pollBudget]
    · cases hs
  | endEv ok =>
    simp only [step, Option.some.injEq, endCall] at hs
    split_ifs at hs <;> subst hs <;> simp [pollBudget]
  | muteEv =>
    simp only [step, Option.some.injEq, toggleMute] at hs
    split_ifs at hs <;> subst hs <;> simp [pollBudget]

/-- A non-poll event does not change the poll count of a trace. -/
theorem pollCount_cons_ne (e : Ev) (tr : List Ev)
    (h : ∀ b n, e ≠ Ev.pollTick b n) :
    pollCount (e :: tr) = pollCount tr := by
  cases e with
  | pollTick b n => exact absurd rfl (h b n)
  | startBegin ok => rfl
  | connectOk => rfl
  | connectFail => rfl
  | connected now => rfl
  | transportState ts now => rfl
  | disconnected => rfl
  | errored => rfl
  | endEv ok => rfl
  | muteEv => rfl

/-- The number of poll firings along any enabled trace that installs no
new poll is bounded by the budget of the starting state. -/
theorem pollCount_le_budget (tr : List Ev) :
    ∀ s s' : CState, Ev.connectOk ∉ tr → run s tr = some s' →
      pollCount tr ≤ pollBudget s := by
  induction tr with
  | nil =>
    intro s s' _ _
    simp [pollCount]
  | cons e rest ih =>
    intro s s' hno hrun
    have hno' : Ev.connectOk ∉ rest := by
      intro hmem; exact hno (List.mem_cons_of_mem _ hmem)
    have hne : e ≠ Ev.connectOk := by
      intro heq; exact hno (heq ▸ List.mem_cons_self _ _)
    simp only [run] at hrun
    cases he : step s e with
    | none => rw [he] at hrun; cases hrun
    | some s1 =>
      rw [he] at hrun
      have hrest := ih s1 s' hno' hrun
      by_cases hp : ∃ b n, e = Ev.pollTick b n
      · obtain ⟨b, n, rfl⟩ := hp
        simp only [step] at he
        split at he
        next hpa =>
          simp only [Option.some.injEq] at he
          subst he
          have := pollBudget_tick b n hpa
          simp only [pollCount]
          omega
        next hpa => cases he
      · push_neg at hp
        rw [pollCount_cons_ne e rest hp]
        have hstep := pollBudget_step_le hne hp he
        omega

/-- A trace of negative poll ticks leaves the status unchanged. -/
theorem run_negPolls_status : ∀ (tr : List Ev) (s s' : CState),
    onlyNegativePolls tr = true → run s tr = some s' →
    s'.status = s.status := by
  intro tr
  induction tr with
  | nil =>
    intro s s' _ h
    simp only [run, Option.some.injEq] at h
    subst h; rfl
  | cons e rest ih =>
    intro s s' hneg hrun
    cases e with
    | pollTick b n =>
      cases b with
      | false =>
        simp only [onlyNegativePolls] at hneg
        simp only [run] at hrun
        cases he : step s (Ev.pollTick false n) with
        | none => rw [he] at hrun; cases hrun
        | some s1 =>
          rw [he] at hrun
          simp only [step] at he
          split at he
          next =>
            simp only [Option.some.injEq] at he
            subst he
            rw [ih _ _ hneg hrun, (connectionPollTick_false_fix s n).1]
          next => cases he
      | true => simp [onlyNegativePolls] at hneg
    | startBegin ok => simp [onlyNegativePolls] at hneg
    | connectOk => simp [onlyNegativePolls] at hneg
    | connectFail => simp [onlyNegativePolls] at hneg
    | connected n => simp [onlyNegativePolls] at hneg
    | transportState ts n => simp [onlyNegativePolls] at hneg
    | disconnected => simp [onlyNegativePolls] at hneg
    | errored => simp [onlyNegativePolls] at hneg
    | endEv ok => simp [onlyNegativePolls] at hneg
    | muteEv => simp [onlyNegativePolls] at hneg

/-- C1 counterexample.  The claim says that across every sequence of
activation signals the session transitions to active and captures
startTime exactly once.  In the code the event handlers never clear the
poll interval, and the final direct check at poll exhaustion does not
consult the `connectionHandled` latch: after the `connected` event
activates at t = 100, ten further poll ticks with the transport connected
re-run the activation block at the tenth tick, so the activation block
runs twice and `startTime` is overwritten (100 → 3100). -/
theorem c1_counterexample :
    (run initState activationTrace).map CState.startTime = some (some 100) ∧
    (run initState (activationTrace ++ pollFlood)).map CState.activations = some 2 ∧
    (run initState (activationTrace ++ pollFlood)).map CState.startTime =
      some (some 3100) := by
  exact ⟨rfl, rfl, rfl⟩

/-- C1 (amended): once the `connectionHandled` latch is set, the
latch-guarded activation signals — the `connected` event, the
`transportStateChanged` event, and an in-budget poll tick — are no-ops on
status, startTime and the activation count (the in-budget tick only
increments its attempt counter); so only the final direct check at poll
exhaustion, which ignores the latch, can activate a second time. -/
theorem c1_latch_idempotence (s : CState) (n m : Nat) (ts : TransportState)
    (b : Bool)
    (hlatch : s.connectionHandled = true)
    (hhandlers : s.handlers = true)
    (hpoll : s.pollActive = true)
    (hbudget : s.pollAttempts + 1 < maxPollAttempts) :
    step s (Ev.connected n) = some s ∧
    step s (Ev.transportState ts n) = some s ∧
    step s (Ev.pollTick b m) =
      some { s with pollAttempts := s.pollAttempts + 1 } := by
  refine ⟨?_, ?_, ?_⟩
  · simp [step, hhandlers, onConnected, hlatch]
  · simp [step, hhandlers, onTransportStateChanged, hlatch]
  · have hlt : ¬ (maxPollAttempts ≤ s.pollAttempts + 1) := by omega
    simp [step, hpoll, connectionPollTick, hlatch, hlt]

/-- Witness for C1 (amended) at the state reached after the `connected`
event fired. -/
theorem c1_latch_idempotence_witness :
    step activeState (Ev.connected 999) = some activeState ∧
    step activeState (Ev.transportState TransportState.ready 999) =
      some activeState ∧
    step activeState (Ev.pollTick true 400) =
      some { activeState with pollAttempts := activeState.pollAttempts + 1 } :=
  c1_latch_idempotence activeState 999 400 TransportState.ready true
    rfl rfl rfl (by decide)

/-- C2 counterexample.  The claim says `startTime` is non-null iff the
status is active, in particular that it is null after a fatal transport
error.  But the `error` handler only sets the status: after activation at
t = 100 followed by an `error` event, the status is `error` while
`startTime` is still `some 100`. -/
theorem c2_counterexample :
    (run initState (activationTrace ++ [Ev.errored])).map CState.status =
      some Status.error ∧
    (run initState (activationTrace ++ [Ev.errored])).map CState.startTime =
      some (some 100) := by
  exact ⟨rfl, rfl⟩

/-- C2 (amended): in every reachable state, `startTime` is null whenever
the status is idle (so after a disconnect event or an explicit end-call it
is cleared) and non-null whenever the status is active; the full
equivalence fails only because the error transition — and a retry entered
from it — retains a stale `startTime`. -/
theorem c2_idle_active_invariant (tr : List Ev) (s : CState)
    (hrun : run initState tr = some s) :
    (s.status = Status.idle → s.startTime = none) ∧
    (s.status = Status.active → s.startTime ≠ none) :=
  inv_run ⟨fun _ => rfl, fun h => by cases h⟩ hrun

/-- Witness for C2 (amended) at the state reached after a disconnect. -/
theorem c2_idle_active_invariant_witness :
    (idleWithRefState.status = Status.idle →
      idleWithRefState.startTime = none) ∧
    (idleWithRefState.status = Status.active →
      idleWithRefState.startTime ≠ none) :=
  c2_idle_active_invariant disconnectedIdleTrace idleWithRefState rfl

/-- C3 counterexample.  The claim says the poll interval is cancelled
immediately once the latch is set, and on every exit path.  After the
`connected` event sets the latch the interval is still live, and it is
still live even after an explicit end-call. -/
theorem c3_counterexample :
    (run initState activationTrace).map CState.connectionHandled = some true ∧
    (run initState activationTrace).map CState.pollActive = some true ∧
    (run initState (activationTrace ++ [Ev.endEv true])).map CState.pollActive =
      some true := by
  exact ⟨rfl, rfl, rfl⟩

/-- C3 (amended): neither the activation events, nor the disconnect
event, nor an explicit end-call cancels the poll interval; the interval
is cleared exactly when its own callback runs and either reads a
connected transport with the latch unset or exhausts the 10-attempt
budget.  The clock timer, by contrast, is cancelled by the CostTracker
effect as soon as `isActive` turns false. -/
theorem c3_poll_cancellation (s : CState) (b : Bool) (n : Nat) (ok : Bool)
    (ts : TransportState) (cs : ClockState) (st : Option ℤ)
    (hpa : s.pollActive = true) :
    (onConnected s n).pollActive = true ∧
    (onTransportStateChanged s ts n).pollActive = true ∧
    (onDisconnected s).pollActive = true ∧
    ((endCall s ok).1).pollActive = true ∧
    ((connectionPollTick s b n).pollActive = false ↔
      ((b = true ∧ s.connectionHandled = false) ∨
        maxPollAttempts ≤ s.pollAttempts + 1)) ∧
    (clockSetInputs cs false st).timerOn = false := by
  refine ⟨?_, ?_, ?_, ?_, ?_, ?_⟩
  · simp only [onConnected, activate]
    split_ifs <;> exact hpa
  · simp only [onTransportStateChanged, activate]
    split_ifs <;> exact hpa
  · exact hpa
  · simp only [endCall]
    split_ifs <;> exact hpa
  · simp only [connectionPollTick, activate]
    split_ifs <;> simp_all
  · simp [clockSetInputs]

/-- Witness for C3 (amended) at the post-activation state. -/
theorem c3_poll_cancellation_witness :
    (onConnected activeState 999).pollActive = true ∧
    (onTransportStateChanged activeState TransportState.ready 999).pollActive
      = true ∧
    (onDisconnected activeState).pollActive = true ∧
    ((endCall activeState true).1).pollActive = true ∧
    ((connectionPollTick activeState true 400).pollActive = false ↔
      ((true = true ∧ activeState.connectionHandled = false) ∨
        maxPollAttempts ≤ activeState.pollAttempts + 1)) ∧
    (clockSetInputs clockDemo false (some 1000)).timerOn = false :=
  c3_poll_cancellation activeState true 400 true TransportState.ready
    clockDemo (some 1000) rfl

/-- C4 counterexample.  The claim says end-call never throws and always
lands in idle with startTime cleared, teardown errors being swallowed.
`endCall` has no try/catch: from the active state, a rejecting
`disconnect()` makes `endCall` reject and the state is left untouched —
still active with `startTime = some 100`. -/
theorem c4_counterexample :
    (endCall activeState false).2 = true ∧
    (endCall activeState false).1.status = Status.active ∧
    (endCall activeState false).1.startTime = some 100 := by
  exact ⟨rfl, rfl, rfl⟩

/-- C4 (amended): an explicit end-call with no open transport handle, or
one whose teardown succeeds, leaves the controller idle with `startTime`
cleared and does not throw; but when teardown of an open handle fails the
rejection propagates and the transition to idle does not happen. -/
theorem c4_endCall_behaviour (s : CState) (ok : Bool) :
    (s.hasClientRef = false →
      endCall s ok =
        ({ s with status := Status.idle, startTime := none }, false)) ∧
    (s.hasClientRef = true →
      endCall s true =
        ({ s with hasClientRef := false, status := Status.idle,
                  startTime := none }, false)) ∧
    (s.hasClientRef = true → endCall s false = (s, true)) := by
  refine ⟨?_, ?_, ?_⟩ <;> intro h <;> simp [endCall, h]

/-- Witness for C4 (amended): end-call from the initial state (no handle)
is a clean no-op transition to idle. -/
theorem c4_endCall_behaviour_witness :
    endCall initState true =
      ({ initState with status := Status.idle, startTime := none }, false) :=
  (c4_endCall_behaviour initState true).1 rfl

/-- C5 counterexample.  The claim says a failed teardown of an old handle
does not block the new connect.  In the code the old `disconnect()` is
awaited inside the `try`: if it rejects, control lands in the `catch`,
the status becomes `error` and `connect()` for the new session is never
issued. -/
theorem c5_counterexample :
    idleWithRefState.hasClientRef = true ∧
    (startCallBegin idleWithRefState false).2.2 = false ∧
    (startCallBegin idleWithRefState false).1.status = Status.error := by
  exact ⟨rfl, rfl, rfl⟩

/-- C5 (amended): when a previous transport handle exists its teardown is
attempted before the new connect is issued, and when teardown succeeds
the connect proceeds; but a teardown failure aborts the start — the catch
sets status to error and the new connect is not issued. -/
theorem c5_teardown_order (s : CState) (ok : Bool) :
    ((startCallBegin s ok).2.1 = s.hasClientRef) ∧
    (s.hasClientRef = true → (startCallBegin s true).2.2 = true) ∧
    (s.hasClientRef = true →
      (startCallBegin s false).2.2 = false ∧
      (startCallBegin s false).1.status = Status.error) ∧
    (s.hasClientRef = false → (startCallBegin s ok).2.2 = true) := by
  refine ⟨?_, ?_, ?_, ?_⟩
  · by_cases h : s.hasClientRef = true
    · simp only [startCallBegin, h, if_true]
      split_ifs <;> simp [h]
    · simp [startCallBegin, h]
  · intro h; simp [startCallBegin, h]
  · intro h; simp [startCallBegin, h]
  · intro h; simp [startCallBegin, h]

/-- Witness for C5 (amended) at the idle-after-disconnect state, whose
stale handle is still stored. -/
theorem c5_teardown_order_witness :
    (startCallBegin idleWithRefState true).2.1 =
      idleWithRefState.hasClientRef ∧
    (startCallBegin idleWithRefState true).2.2 = true :=
  ⟨(c5_teardown_order idleWithRefState true).1,
   (c5_teardown_order idleWithRefState true).2.1 rfl⟩

/-- C6 (confirmed): if every poll tick reads a disconnected transport and
no activation event fires, the status stays `connecting` — the session
never moves to active or error on its own. -/
theorem c6_stays_connecting (s : CState) (tr : List Ev) (s' : CState)
    (hconn : s.status = Status.connecting)
    (hneg : onlyNegativePolls tr = true)
    (hrun : run s tr = some s') :
    s'.status = Status.connecting := by
  rw [run_negPolls_status tr s s' hneg hrun]
  exact hconn

/-- Witness for C6: ten negative polls from the post-connect state leave
it connecting. -/
theorem c6_stays_connecting_witness :
    ((run postConnectState negPolls).getD initState).status =
      Status.connecting :=
  c6_stays_connecting postConnectState negPolls
    ((run postConnectState negPolls).getD initState) rfl rfl rfl

/-- C7 counterexample.  The claim says toggleMute makes no transport call
while the status is idle.  `toggleMute` is guarded on the client ref, not
on the status: after a transport `disconnected` event the status is idle
but the ref is still stored, and toggling then invokes `enableMic` (here
with argument false). -/
theorem c7_counterexample :
    (run initState disconnectedIdleTrace).map CState.status =
      some Status.idle ∧
    (run initState disconnectedIdleTrace).map CState.micLog = some [] ∧
    (run initState (disconnectedIdleTrace ++ [Ev.muteEv])).map CState.micLog =
      some [false] := by
  exact ⟨rfl, rfl, rfl⟩

/-- C7 (amended): toggleMute makes the transport call exactly when a
client handle is stored, regardless of status: with a handle it flips the
muted boolean and invokes microphone-enable with the inverted value of
the new flag; without a handle (fresh state, or idle after end-call) it
changes nothing.  In idle reached through a disconnect event the stale
handle is still stored, so a transport call is made. -/
theorem c7_toggleMute_guard (s : CState) :
    (s.hasClientRef = true →
      (toggleMute s).isMuted = !s.isMuted ∧
      (toggleMute s).micLog = s.micLog ++ [!(toggleMute s).isMuted] ∧
      (toggleMute s).status = s.status) ∧
    (s.hasClientRef = false → toggleMute s = s) := by
  constructor <;> intro h <;> simp [toggleMute, h]

/-- Witness for C7 (amended) at the idle-after-disconnect state. -/
theorem c7_toggleMute_guard_witness :
    (toggleMute idleWithRefState).isMuted = !idleWithRefState.isMuted ∧
    (toggleMute idleWithRefState).micLog =
      idleWithRefState.micLog ++ [!(toggleMute idleWithRefState).isMuted] ∧
    (toggleMute idleWithRefState).status = idleWithRefState.status :=
  (c7_toggleMute_guard idleWithRefState).1 rfl

/-- C8 (confirmed): while the clock is running for a session started at
`st`, the durations computed by successive ticks are monotonically
non-decreasing in the sampled time; when `isActive` turns false the
effect clears the timer while retaining the stored cost and duration, and
no further tick can fire. -/
theorem c8_clock_monotone_freeze (s1 s2 : ClockState) (st : ℤ) (n1 n2 : ℤ)
    (h1 : s1.sessionStart = some st) (h2 : s2.sessionStart = some st)
    (hmono : n1 ≤ n2) :
    (clockTickFn s1 n1).duration ≤ (clockTickFn s2 n2).duration ∧
    (∀ (c : ClockState) (stIn : Option ℤ),
      (clockSetInputs c false stIn).cost = c.cost ∧
      (clockSetInputs c false stIn).duration = c.duration ∧
      (clockSetInputs c false stIn).timerOn = false) ∧
    (∀ (c : ClockState) (m : ℤ), c.timerOn = false →
      clockStep c (ClockEv.tick m) = none) := by
  refine ⟨?_, ?_, ?_⟩
  · simp only [clockTickFn, h1, h2]
    have hc : (n1 : ℚ) ≤ (n2 : ℚ) := by exact_mod_cast hmono
    linarith
  · intro c stIn
    refine ⟨?_, ?_, ?_⟩ <;> simp [clockSetInputs]
  · intro c m h
    simp [clockStep, h]

/-- Witness for C8 at a session started at t = 1000, sampled at t = 2000
and t = 3000. -/
theorem c8_clock_monotone_freeze_witness :
    (clockTickFn clockDemo 2000).duration ≤
      (clockTickFn clockDemo 3000).duration :=
  (c8_clock_monotone_freeze clockDemo clockDemo 1000 2000 3000 rfl rfl
    (by norm_num)).1

/-- C9 (confirmed): every tick computes cost and duration from one time
sample, with `cost = duration * COST_PER_SECOND`,
`duration = (now - startTime) / 1000`, and `COST_PER_SECOND = 0.0005 =
1/2000` a fixed constant. -/
theorem c9_cost_relation (s : ClockState) (st now : ℤ)
    (h : s.sessionStart = some st) :
    (clockTickFn s now).cost = (clockTickFn s now).duration * COST_PER_SECOND ∧
    (clockTickFn s now).duration = ((now : ℚ) - (st : ℚ)) / 1000 ∧
    COST_PER_SECOND = 1 / 2000 := by
  refine ⟨?_, ?_, ?_⟩
  · simp [clockTickFn, h]
  · simp [clockTickFn, h]
  · norm_num [COST_PER_SECOND]

/-- Witness for C9 at a session started at t = 1000 sampled at t = 3000. -/
theorem c9_cost_relation_witness :
    (clockTickFn clockDemo 3000).cost =
      (clockTickFn clockDemo 3000).duration * COST_PER_SECOND ∧
    (clockTickFn clockDemo 3000).duration =
      ((3000 : ℚ) - (1000 : ℚ)) / 1000 :=
  ⟨(c9_cost_relation clockDemo 1000 3000 rfl).1,
   (c9_cost_relation clockDemo 1000 3000 rfl).2.1⟩

/-- C10 (confirmed): along any enabled trace in which no new poll is
installed (no `connect()` resolution), the poll callback fires at most
`maxPollAttempts = 10` times — on every branch the interval is cleared no
later than the tenth invocation. -/
theorem c10_poll_at_most_ten (s s' : CState) (tr : List Ev)
    (hno : Ev.connectOk ∉ tr) (hrun : run s tr = some s') :
    pollCount tr ≤ maxPollAttempts := by
  have h := pollCount_le_budget tr s s' hno hrun
  have hb : pollBudget s ≤ maxPollAttempts := by
    simp only [pollBudget, maxPollAttempts]
    split_ifs
    · exact max_le (by omega) (by omega)
    · omega
  omega

/-- Witness for C10: the ten-tick negative poll run from the post-connect
state stays within the budget. -/
theorem c10_poll_at_most_ten_witness :
    pollCount negPolls ≤ maxPollAttempts :=
  c10_poll_at_most_ten postConnectState
    ((run postConnectState negPolls).getD initState) negPolls
    (by decide) rfl

end VoiceesGem
